import Mathlib

/-!
Verification of the wordTotex converter engine
(`src/wordtotex/converter.py`, class `DocxToLatexConverter`).

The document model of the external parser (python-docx) is embedded as
plain inductive data: a document is a list of blocks, a block is a
paragraph or a table, a paragraph carries its style name, alignment and
runs, a run carries text, formatting attributes and embedded images.
Python string operations used by the source (`str.lower`, `str.startswith`,
`in`, `str.strip`, single-character `str.replace`) are modelled on the
character list of the string, and the per-call mutable converter state
(image counter, saved image paths) is threaded explicitly.  Fallible code
(`max()` over an empty sequence in `_convert_table`) returns `Except`.
-/

namespace WordToTex

/-- Python `str.lower()`, modelled characterwise on the string's data. -/
def toLowerStr (s : String) : String := String.mk (s.data.map Char.toLower)

/-- Python `str.startswith(pat)`, modelled on the character lists. -/
def strStartsWith (s pat : String) : Bool := List.isPrefixOf pat.data s.data

/-- Substring test on character lists: `sub` occurs contiguously in `hay`. -/
def containsSub (hay sub : List Char) : Bool :=
  if sub.isPrefixOf hay then true
  else
    match hay with
    | [] => false
    | _ :: t => containsSub t sub

/-- Python `sub in s` (substring containment). -/
def strContains (s sub : String) : Bool := containsSub s.data sub.data

/-- Whitespace characters stripped by Python `str.strip()`. -/
def isWS (c : Char) : Bool :=
  c = ' ' || c = '\t' || c = '\n' || c = '\r' || c = '\x0b' || c = '\x0c'

/-- Python `str.strip()`: drop whitespace from both ends. -/
def trimStr (s : String) : String :=
  String.mk (((s.data.dropWhile isWS).reverse.dropWhile isWS).reverse)

/-- The two recognized `ConverterConfig` options. -/
structure Config where
  include_preamble : Bool
  table_border : Bool
  deriving DecidableEq

/-- Per-conversion-call mutable state of the converter: the sequential
image counter (`_image_counter`) and the saved image paths
(`_saved_images`), threaded explicitly. -/
structure ImgState where
  counter : Nat
  saved : List String
  deriving DecidableEq

/-- An embedded image: `suffix` is `Path(image_part.partname).suffix`
(the empty string when the part name has no extension). -/
structure Image where
  suffix : String
  deriving DecidableEq

/-- A run: text plus formatting attributes.  `colorHex` is the rgb hex
string of `font.color.rgb` when a color is set; `images` lists the
pictures found in the run, `none` standing for a `pic` element whose
blip, embed id or related part is missing (skipped by the source). -/
structure Run where
  text : String
  bold : Bool
  italic : Bool
  underline : Bool
  colorHex : Option String
  fontName : Option String
  sizePt : Option ℚ
  images : List (Option Image)
  deriving DecidableEq

/-- `WD_ALIGN_PARAGRAPH.CENTER`. -/
def WD_CENTER : Nat := 1

/-- `WD_ALIGN_PARAGRAPH.RIGHT`. -/
def WD_RIGHT : Nat := 2

/-- A paragraph: optional style (its name), optional alignment enum value,
ordered runs. -/
structure Paragraph where
  style : Option String
  alignment : Option Nat
  runs : List Run
  deriving DecidableEq

/-- A table cell: its ordered paragraphs. -/
structure Cell where
  paragraphs : List Paragraph
  deriving DecidableEq

/-- A table row: its ordered cells. -/
structure Row where
  cells : List Cell
  deriving DecidableEq

/-- A table: its ordered rows. -/
structure Table where
  rows : List Row
  deriving DecidableEq

/-- A block item of the document body, as produced by `_iter_block_items`. -/
inductive Block where
  | para (p : Paragraph)
  | table (t : Table)
  deriving DecidableEq

/-- The `replacements` table of `_escape_tex`. -/
def replacements (c : Char) : Option String :=
  if c = '\\' then some "\\textbackslash\x7b\x7d"
  else if c = '&' then some "\\&"
  else if c = '%' then some "\\%"
  else if c = '$' then some "\\$"
  else if c = '#' then some "\\#"
  else if c = '_' then some "\\_"
  else if c = '\x7b' then some "\\\x7b"
  else if c = '\x7d' then some "\\\x7d"
  else if c = '~' then some "\\textasciitilde\x7b\x7d"
  else if c = '^' then some "\\textasciicircum\x7b\x7d"
  else none

/-- The special characters of the `replacements` table. -/
def specials : List Char :=
  ['\\', '&', '%', '$', '#', '_', '\x7b', '\x7d', '~', '^']

/-- The call `text.replace("\n", "\\\\ ")` of `_escape_tex` (a
single-character pattern, so characterwise replacement). -/
def replaceNewline (cs : List Char) : List Char :=
  (cs.map (fun c => if c = '\n' then ['\\', '\\', ' '] else [c])).flatten

/-- The character loop of `_escape_tex`, run after the newline
replacement: each character is looked up in `replacements`. -/
def escapeList (cs : List Char) : List Char :=
  ((replaceNewline cs).map (fun c =>
    match replacements c with
    | some r => r.data
    | none => [c])).flatten

/-- `_escape_tex`. -/
def escape_tex (text : String) : String :=
  if text = "" then "" else String.mk (escapeList text.data)

/-- `_heading_command`. -/
def heading_command (style_name : String) : Option String :=
  let normalized := toLowerStr style_name
  if strStartsWith normalized "heading 1" then some "\\section"
  else if strStartsWith normalized "heading 2" then some "\\subsection"
  else if strStartsWith normalized "heading 3" then some "\\subsubsection"
  else if strStartsWith normalized "heading 4" then some "\\paragraph"
  else if strStartsWith normalized "heading 5" then some "\\subparagraph"
  else none

/-- `_get_list_type`. -/
def get_list_type (p : Paragraph) : Option String :=
  let style_name := match p.style with | some s => toLowerStr s | none => ""
  if strStartsWith style_name "list bullet" || strStartsWith style_name "blockquote" then
    some "itemize"
  else if strStartsWith style_name "list number" then some "enumerate"
  else none

/-- `_apply_alignment`. -/
def apply_alignment (text : String) (alignment : Option Nat) : String :=
  if alignment = some WD_CENTER then
    "\\begin\x7bcenter\x7d" ++ text ++ "\\end\x7bcenter\x7d"
  else if alignment = some WD_RIGHT then
    "\\begin\x7bflushright\x7d" ++ text ++ "\\end\x7bflushright\x7d"
  else text

/-- `_map_alignment`. -/
def map_alignment (alignment : Option Nat) : String :=
  if alignment = some WD_CENTER then "c"
  else if alignment = some WD_RIGHT then "r"
  else "l"

/-- The `_cell_alignment_` marker helper of the source (center, right, or
none). -/
def cell_alignment_cmd (alignment : Option Nat) : String :=
  if alignment = some WD_CENTER then "\\centering"
  else if alignment = some WD_RIGHT then "\\raggedleft"
  else ""

/-- `_is_monospace`. -/
def is_monospace (font_name : String) : Bool :=
  let lowered := toLowerStr font_name
  ["mono", "consolas", "courier", "code"].any (fun keyword => strContains lowered keyword)

/-- `_size_command`. -/
def size_command (size_pt : Option ℚ) : Option String :=
  match size_pt with
  | none => none
  | some s =>
    if s ≥ 18 then some "\\Large"
    else if s ≥ 16 then some "\\large"
    else if s ≤ 8 then some "\\footnotesize"
    else if s ≤ 9 then some "\\small"
    else none

/-- The hex-color computation at the top of `_apply_run_formatting`:
strip a leading alpha byte from an 8-digit value, and treat an empty
result as no color. -/
def effective_hex (r : Run) : Option String :=
  match r.colorHex with
  | none => none
  | some h =>
    let h2 := if h.data.length = 8 then String.mk (h.data.drop 2) else h
    if h2 = "" then none else some h2

/-- `_apply_run_formatting`. -/
def apply_run_formatting (content : String) (r : Run) : String :=
  let formatted := content
  let formatted :=
    match effective_hex r with
    | some h => "\\textcolor[HTML]\x7b" ++ h ++ "\x7d\x7b" ++ formatted ++ "\x7d"
    | none => formatted
  let formatted := if r.underline then "\\underline\x7b" ++ formatted ++ "\x7d" else formatted
  let formatted := if r.italic then "\\textit\x7b" ++ formatted ++ "\x7d" else formatted
  let formatted := if r.bold then "\\textbf\x7b" ++ formatted ++ "\x7d" else formatted
  let formatted :=
    match r.fontName with
    | some nm => if is_monospace nm then "\\texttt\x7b" ++ formatted ++ "\x7d" else formatted
    | none => formatted
  match size_command r.sizePt with
  | some cmd => "\x7b" ++ cmd ++ " " ++ formatted ++ "\x7d"
  | none => formatted

/-- The extension chosen in `_extract_images`:
`Path(...).suffix or ".png"`. -/
def image_ext (img : Image) : String :=
  if img.suffix = "" then ".png" else img.suffix

/-- The reference command emitted for one image, given its path relative
to the output directory. -/
def image_snippet (relPath : String) : String :=
  "\n\\includegraphics[width=\\linewidth]\x7b" ++ relPath ++ "\x7d\n"

/-- `_extract_images`: walk the run's pictures in order; skip
unresolvable ones; for each image save it as
`<stem>_images/image_<counter><ext>`, advance the counter, record the
path, and emit one reference command. -/
def extract_images (stem : String) (st : ImgState) :
    List (Option Image) → ImgState × List String
  | [] => (st, [])
  | none :: rest => extract_images stem st rest
  | some img :: rest =>
    let ext := image_ext img
    let image_name := "image_" ++ toString st.counter ++ ext
    let image_path := stem ++ "_images/" ++ image_name
    let st1 := ImgState.mk (st.counter + 1) (st.saved ++ [image_path])
    let res := extract_images stem st1 rest
    (res.1, image_snippet image_path :: res.2)

/-- `_build_runs`: image snippets, then the escaped and formatted text of
each run, concatenated. -/
def build_runs (stem : String) (st : ImgState) (p : Paragraph) : ImgState × String :=
  let r := p.runs.foldl
    (fun (acc : ImgState × List String) run =>
      let ex := extract_images stem acc.1 run.images
      let parts := acc.2 ++ ex.2
      let content := escape_tex run.text
      if content = "" then (ex.1, parts)
      else (ex.1, parts ++ [apply_run_formatting content run]))
    (st, [])
  (r.1, String.join r.2)

/-- `_convert_paragraph`: returns (new image state, emitted text,
returned list classification). -/
def convert_paragraph (stem : String) (st : ImgState) (p : Paragraph)
    (list_type : Option String) : ImgState × String × Option String :=
  let r := build_runs stem st p
  if r.2 = "" then (r.1, "", list_type)
  else
    let style := Option.getD p.style ""
    match heading_command style with
    | some h => (r.1, h ++ "\x7b" ++ r.2 ++ "\x7d\n", none)
    | none =>
      match list_type with
      | some lt => (r.1, "\\item " ++ r.2, some lt)
      | none => (r.1, apply_alignment r.2 p.alignment ++ "\n", none)

/-- Occurrence count of `a` in `l` (the per-key increments of the
counting loop of `_column_alignment`). -/
def countEq (a : String) (l : List String) : Nat :=
  l.foldl (fun n x => if x = a then n + 1 else n) 0

/-- Python `max(items, key=value)` over a nonempty pair list: the first
item with maximal value wins (later items replace only on strictly
greater value). -/
def maxByVal (x : String × Nat) (xs : List (String × Nat)) : String :=
  (xs.foldl (fun best y => if y.2 > best.2 then y else best) x).1

/-- The vote list of `_column_alignment`: for each row that has the
column, the mapped alignment of the first paragraph of that cell
(`none`, hence left, when the cell has no paragraphs). -/
def columnVotes (t : Table) (colIdx : Nat) : List String :=
  t.rows.filterMap (fun row =>
    match row.cells.get? colIdx with
    | none => none
    | some cell =>
      some (map_alignment
        (match cell.paragraphs with
         | [] => none
         | p :: _ => p.alignment)))

/-- `_column_alignment`: count the votes and take the maximum in the
fixed dictionary order l, c, r. -/
def column_alignment (t : Table) (colIdx : Nat) : String :=
  let alignments := columnVotes t colIdx
  if alignments = [] then "l"
  else
    maxByVal ("l", countEq "l" alignments)
      [("c", countEq "c" alignments), ("r", countEq "r" alignments)]

/-- `_convert_cell`: render each paragraph, skip empty ones, wrap
center/right paragraphs in their alignment marker, join with the
explicit line-break marker. -/
def convert_cell (stem : String) (st : ImgState) (cell : Cell) : ImgState × String :=
  match cell.paragraphs with
  | [] => (st, "")
  | _ =>
    let r := cell.paragraphs.foldl
      (fun (acc : ImgState × List String) p =>
        let br := build_runs stem acc.1 p
        if br.2 = "" then (br.1, acc.2)
        else
          let cmd := cell_alignment_cmd p.alignment
          let text := if cmd = "" then br.2 else "\x7b" ++ cmd ++ " " ++ br.2 ++ "\x7d"
          (br.1, acc.2 ++ [text]))
      (st, [])
    (r.1, if r.2 = [] then "" else String.intercalate " \\\\ " r.2)

/-- `_convert_table`.  `max(len(row.cells) for row in table.rows)` raises
`ValueError` on a table with no rows; this is the only error source. -/
def convert_table (cfg : Config) (stem : String) (st : ImgState) (t : Table) :
    Except String (ImgState × List String) :=
  match t.rows with
  | [] => Except.error "max() arg is an empty sequence"
  | r0 :: rest =>
    let num_cols := (rest.map (fun row => row.cells.length)).foldl Nat.max r0.cells.length
    let alignment :=
      String.intercalate "|" ((List.range num_cols).map (fun idx => column_alignment t idx))
    let border := if cfg.table_border then "|" else ""
    let acc := t.rows.foldl
      (fun (acc : ImgState × List String) row =>
        let cr := row.cells.foldl
          (fun (a : ImgState × List String) cell =>
            let cc := convert_cell stem a.1 cell
            (cc.1, a.2 ++ [cc.2]))
          (acc.1, [])
        (cr.1, acc.2 ++ [String.intercalate " & " cr.2 ++ " \\\\", "\\hline"]))
      (st, [])
    Except.ok (acc.1,
      ["\\begin\x7btabular\x7d\x7b" ++ border ++ alignment ++ border ++ "\x7d", "\\hline"]
        ++ acc.2 ++ ["\\end\x7btabular\x7d\n"])

/-- One iteration of the block loop of `convert`: the close transition,
then paragraph or table dispatch, the open transition and the paragraph
text for paragraphs; tables always force a close first. -/
def processBlock (cfg : Config) (stem : String) (st : ImgState) (cur : Option String) :
    Block → Except String (ImgState × Option String × List String)
  | Block.para p =>
    let list_type := get_list_type p
    let close : Option String × List String :=
      match cur with
      | some L => if list_type ≠ some L then (none, ["\\end\x7b" ++ L ++ "\x7d"]) else (some L, [])
      | none => (none, [])
    let r := convert_paragraph stem st p list_type
    let opn : Option String × List String :=
      match r.2.2, close.1 with
      | some o, none => (some o, ["\\begin\x7b" ++ o ++ "\x7d"])
      | _, c => (c, [])
    Except.ok (r.1, opn.1, close.2 ++ opn.2 ++ (if r.2.1 = "" then [] else [r.2.1]))
  | Block.table t =>
    let closeLines : List String :=
      match cur with
      | some L => ["\\end\x7b" ++ L ++ "\x7d"]
      | none => []
    match convert_table cfg stem st t with
    | Except.error e => Except.error e
    | Except.ok res => Except.ok (res.1, none, closeLines ++ res.2)

/-- The block loop of `convert`: lines accumulate in block order. -/
def convertLoop (cfg : Config) (stem : String) (st : ImgState) (cur : Option String) :
    List Block → Except String (ImgState × Option String × List String)
  | [] => Except.ok (st, cur, [])
  | b :: bs =>
    match processBlock cfg stem st cur b with
    | Except.error e => Except.error e
    | Except.ok res =>
      match convertLoop cfg stem res.1 res.2.1 bs with
      | Except.error e => Except.error e
      | Except.ok res2 => Except.ok (res2.1, res2.2.1, res.2.2 ++ res2.2.2)

/-- `_wrap_document`. -/
def wrap_document (body : String) : String :=
  String.intercalate "\n"
    ["\\documentclass\x7barticle\x7d",
     "\\usepackage[utf8]\x7binputenc\x7d",
     "\\usepackage\x7barray\x7d",
     "\\usepackage\x7bxcolor\x7d",
     "\\usepackage\x7bhyperref\x7d",
     "\\usepackage\x7bgraphicx\x7d",
     "\\begin\x7bdocument\x7d"] ++ "\n\n" ++ body ++ "\n\\end\x7bdocument\x7d\n"

/-- `convert`: run the block loop from a fresh state (counter 1, no saved
images, no open list), force a final list close, join, strip, add the
trailing newline, and optionally wrap with the preamble. -/
def convertDoc (cfg : Config) (stem : String) (blocks : List Block) :
    Except String (String × List String) :=
  match convertLoop cfg stem (ImgState.mk 1 []) none blocks with
  | Except.error e => Except.error e
  | Except.ok res =>
    let ls :=
      match res.2.1 with
      | some L => res.2.2 ++ ["\\end\x7b" ++ L ++ "\x7d"]
      | none => res.2.2
    let body := trimStr (String.intercalate "\n" ls) ++ "\n"
    Except.ok ((if cfg.include_preamble then wrap_document body else body), res.1.saved)

/-- Specification-side column alignment, following the spec's words: the
classification with the highest vote count wins, ties broken in the
fixed priority order left, center, right. -/
def spec_column_alignment (t : Table) (colIdx : Nat) : String :=
  let votes := columnVotes t colIdx
  let cl := countEq "l" votes
  let cc := countEq "c" votes
  let cr := countEq "r" votes
  if cl ≥ cc ∧ cl ≥ cr then "l" else if cc ≥ cr then "c" else "r"

/-- Specification-side wrap (1): color wrap if a color is set. -/
def color_wrap (r : Run) (s : String) : String :=
  match effective_hex r with
  | some h => "\\textcolor[HTML]\x7b" ++ h ++ "\x7d\x7b" ++ s ++ "\x7d"
  | none => s

/-- Specification-side wrap (2): underline wrap if set. -/
def underline_wrap (r : Run) (s : String) : String :=
  if r.underline then "\\underline\x7b" ++ s ++ "\x7d" else s

/-- Specification-side wrap (3): italic wrap if set. -/
def italic_wrap (r : Run) (s : String) : String :=
  if r.italic then "\\textit\x7b" ++ s ++ "\x7d" else s

/-- Specification-side wrap (4): bold wrap if set. -/
def bold_wrap (r : Run) (s : String) : String :=
  if r.bold then "\\textbf\x7b" ++ s ++ "\x7d" else s

/-- Specification-side wrap (5): monospace wrap if the font name matches
the keyword heuristic. -/
def mono_wrap (r : Run) (s : String) : String :=
  match r.fontName with
  | some nm => if is_monospace nm then "\\texttt\x7b" ++ s ++ "\x7d" else s
  | none => s

/-- Specification-side wrap (6): size wrap, outermost. -/
def size_wrap (r : Run) (s : String) : String :=
  match size_command r.sizePt with
  | some cmd => "\x7b" ++ cmd ++ " " ++ s ++ "\x7d"
  | none => s

/-- Specification-side run formatting: the six wraps composed in the
fixed order, innermost (color) to outermost (size). -/
def spec_apply_run_formatting (content : String) (r : Run) : String :=
  size_wrap r (mono_wrap r (bold_wrap r (italic_wrap r (underline_wrap r (color_wrap r content)))))

/-- Pair each element with its index, starting at `n`. -/
def indexFrom {α : Type} (n : Nat) : List α → List (Nat × α)
  | [] => []
  | x :: xs => (n, x) :: indexFrom (n + 1) xs

/-- Per-block output segments: like `convertLoop`, but keeping each
block's contributed lines as a separate segment. -/
def blockSegs (cfg : Config) (stem : String) (st : ImgState) (cur : Option String) :
    List Block → Except String (List (List String) × ImgState × Option String)
  | [] => Except.ok ([], st, cur)
  | b :: bs =>
    match processBlock cfg stem st cur b with
    | Except.error e => Except.error e
    | Except.ok res =>
      match blockSegs cfg stem res.1 res.2.1 bs with
      | Except.error e => Except.error e
      | Except.ok res2 => Except.ok (res.2.2 :: res2.1, res2.2.1, res2.2.2)

/-- Default configuration (both options true). -/
def cfg0 : Config := Config.mk true true

/-- Configuration with the preamble disabled. -/
def cfgNoPre : Config := Config.mk false true

/-- Fresh per-call state: counter 1, no saved images. -/
def st0 : ImgState := ImgState.mk 1 []

/-- A plain text run with no formatting and no images. -/
def mkTextRun (t : String) : Run :=
  Run.mk t false false false none none none []

/-- Concrete paragraphs for the list-grouping and heading examples. -/
def pBulletA : Paragraph := Paragraph.mk (some "List Bullet") none [mkTextRun "a"]

def pBulletB : Paragraph := Paragraph.mk (some "List Bullet") none [mkTextRun "b"]

def pBulletC : Paragraph := Paragraph.mk (some "List Bullet") none [mkTextRun "c"]

def pNormalD : Paragraph := Paragraph.mk (some "Normal") none [mkTextRun "d"]

/-- An empty paragraph with style Normal (no runs, hence empty text). -/
def pEmptyNormal : Paragraph := Paragraph.mk (some "Normal") none []

/-- An empty paragraph with style List Bullet. -/
def pEmptyBullet : Paragraph := Paragraph.mk (some "List Bullet") none []

/-- A heading-2 paragraph with text T. -/
def pHeadingT : Paragraph := Paragraph.mk (some "Heading 2") none [mkTextRun "T"]

/-- A paragraph whose only run carries two images and no text. -/
def pTwoImages : Paragraph :=
  Paragraph.mk (some "Normal") none
    [Run.mk "" false false false none none none
      [some (Image.mk ".png"), some (Image.mk ".jpg")]]

/-- A one-paragraph cell with the given alignment. -/
def mkCell (a : Option Nat) : Cell :=
  Cell.mk [Paragraph.mk (some "Normal") a []]

/-- Column with cell alignments center, center, right. -/
def tblCCR : Table :=
  Table.mk [Row.mk [mkCell (some WD_CENTER)], Row.mk [mkCell (some WD_CENTER)],
    Row.mk [mkCell (some WD_RIGHT)]]

/-- Column with cell alignments left, center, right (three-way tie). -/
def tblLCR : Table :=
  Table.mk [Row.mk [mkCell none], Row.mk [mkCell (some WD_CENTER)],
    Row.mk [mkCell (some WD_RIGHT)]]

/-- The run of the formatting-nesting example: bold, italic, red. -/
def runBIC : Run :=
  Run.mk "text" true true false (some "FF0000") none none []


/-- Two lists with different heads cannot both be prefixes of one list. -/
lemma isPrefixOf_false_head {c1 c2 : Char} {p1 p2 t : List Char} (hne : c1 ≠ c2)
    (h : List.isPrefixOf (c1 :: p1) t = true) : List.isPrefixOf (c2 :: p2) t = false := by
  cases t with
  | nil => simp [List.isPrefixOf] at h
  | cons a as =>
    simp [List.isPrefixOf] at h ⊢
    intro hc2
    exact absurd (hc2 ▸ h.1.symm ▸ rfl) hne

/-- An append with a nonempty left part is nonempty. -/
lemma append_ne_empty_left (a b : String) (ha : a.data ≠ []) : a ++ b ≠ "" := by
  intro h
  have h2 := congrArg String.data h
  rw [String.data_append] at h2
  simp at h2
  exact ha h2.1

/-- An append with a nonempty right part is nonempty. -/
lemma append_ne_empty_right (a b : String) (hb : b.data ≠ []) : a ++ b ≠ "" := by
  intro h
  have h2 := congrArg String.data h
  rw [String.data_append] at h2
  simp at h2
  exact hb h2.2

/-- The Python `max` over the three-entry counts dictionary, in closed form:
first maximum in the iteration order l, c, r wins. -/
lemma maxByVal_three (cl cc cr : Nat) :
    maxByVal ("l", cl) [("c", cc), ("r", cr)] =
      if cl ≥ cc ∧ cl ≥ cr then "l" else if cc ≥ cr then "c" else "r" := by
  unfold maxByVal
  simp only [List.foldl]
  split_ifs <;> simp_all <;> omega

/-- A string starting with `pat1` cannot start with a pattern whose first
character differs. -/
lemma strStartsWith_false (t pat1 pat2 : String) (c1 c2 : Char)
    (e1 : pat1.data.head? = some c1) (e2 : pat2.data.head? = some c2) (hne : c1 ≠ c2)
    (h : strStartsWith t pat1 = true) : strStartsWith t pat2 = false := by
  unfold strStartsWith at h ⊢
  cases hd1 : pat1.data with
  | nil => rw [hd1] at e1; simp at e1
  | cons a as =>
    rw [hd1] at e1 h
    cases hd2 : pat2.data with
    | nil => rw [hd2] at e2; simp at e2
    | cons b bs =>
      rw [hd2] at e2
      simp at e1 e2
      subst e1
      subst e2
      exact isPrefixOf_false_head hne h

/-- A style whose lowered name starts with a pattern not beginning in h
is not a heading. -/
lemma heading_command_none_of_first (s pat : String) (c : Char)
    (hp : strStartsWith (toLowerStr s) pat = true)
    (e : pat.data.head? = some c) (hc : c ≠ 'h') : heading_command s = none := by
  have k1 := strStartsWith_false (toLowerStr s) pat "heading 1" c 'h' e rfl hc hp
  have k2 := strStartsWith_false (toLowerStr s) pat "heading 2" c 'h' e rfl hc hp
  have k3 := strStartsWith_false (toLowerStr s) pat "heading 3" c 'h' e rfl hc hp
  have k4 := strStartsWith_false (toLowerStr s) pat "heading 4" c 'h' e rfl hc hp
  have k5 := strStartsWith_false (toLowerStr s) pat "heading 5" c 'h' e rfl hc hp
  simp [heading_command, k1, k2, k3, k4, k5]

/-- A paragraph whose lowered style name starts with a pattern beginning
neither in l nor in b has no list classification. -/
lemma get_list_type_none_of_first (p : Paragraph) (s pat : String) (c : Char)
    (hs : p.style = some s) (hp : strStartsWith (toLowerStr s) pat = true)
    (e : pat.data.head? = some c) (hcl : c ≠ 'l') (hcb : c ≠ 'b') :
    get_list_type p = none := by
  have k1 := strStartsWith_false (toLowerStr s) pat "list bullet" c 'l' e rfl hcl hp
  have k2 := strStartsWith_false (toLowerStr s) pat "blockquote" c 'b' e rfl hcb hp
  have k3 := strStartsWith_false (toLowerStr s) pat "list number" c 'l' e rfl hcl hp
  simp [get_list_type, hs, k1, k2, k3]

/-- A paragraph with a list classification is never a heading. -/
lemma list_some_heading_none (p : Paragraph) (L : String)
    (h : get_list_type p = some L) : heading_command (Option.getD p.style "") = none := by
  cases hs : p.style with
  | none =>
    have hn : get_list_type p = none := by
      unfold get_list_type
      rw [hs]
      decide
    rw [hn] at h
    exact absurd h (by simp)
  | some s =>
    have hc : heading_command s = none := by
      simp only [get_list_type, hs] at h
      by_cases b1 : strStartsWith (toLowerStr s) "list bullet" = true
      · exact heading_command_none_of_first s "list bullet" 'l' b1 rfl (by decide)
      · by_cases b2 : strStartsWith (toLowerStr s) "blockquote" = true
        · exact heading_command_none_of_first s "blockquote" 'b' b2 rfl (by decide)
        · by_cases b3 : strStartsWith (toLowerStr s) "list number" = true
          · exact heading_command_none_of_first s "list number" 'l' b3 rfl (by decide)
          · exfalso
            simp [b1, b2, b3] at h
    simp [hs, hc]

/-- A heading paragraph has no list classification. -/
lemma heading_some_list_none (p : Paragraph) (h : String)
    (hh : heading_command (Option.getD p.style "") = some h) : get_list_type p = none := by
  cases hs : p.style with
  | none =>
    rw [hs] at hh
    have he : heading_command (Option.getD (none : Option String) "") = none := by decide
    rw [he] at hh
    simp at hh
  | some s =>
    simp only [hs, Option.getD_some] at hh
    by_cases b1 : strStartsWith (toLowerStr s) "heading 1" = true
    · exact get_list_type_none_of_first p s "heading 1" 'h' hs b1 rfl (by decide) (by decide)
    · by_cases b2 : strStartsWith (toLowerStr s) "heading 2" = true
      · exact get_list_type_none_of_first p s "heading 2" 'h' hs b2 rfl (by decide) (by decide)
      · by_cases b3 : strStartsWith (toLowerStr s) "heading 3" = true
        · exact get_list_type_none_of_first p s "heading 3" 'h' hs b3 rfl (by decide) (by decide)
        · by_cases b4 : strStartsWith (toLowerStr s) "heading 4" = true
          · exact get_list_type_none_of_first p s "heading 4" 'h' hs b4 rfl (by decide) (by decide)
          · by_cases b5 : strStartsWith (toLowerStr s) "heading 5" = true
            · exact get_list_type_none_of_first p s "heading 5" 'h' hs b5 rfl (by decide) (by decide)
            · exfalso
              unfold heading_command at hh
              simp [b1, b2, b3, b4, b5] at hh

/-- Evaluation of the paragraph emitter on empty run text. -/
lemma convert_paragraph_empty (stem : String) (st : ImgState) (p : Paragraph)
    (lt : Option String) (h : (build_runs stem st p).2 = "") :
    convert_paragraph stem st p lt = ((build_runs stem st p).1, "", lt) := by
  simp only [convert_paragraph]
  rw [if_pos h]

/-- Evaluation of the paragraph emitter on a heading paragraph. -/
lemma convert_paragraph_heading (stem : String) (st : ImgState) (p : Paragraph)
    (lt : Option String) (h : String)
    (hh : heading_command (Option.getD p.style "") = some h)
    (ht : ¬ (build_runs stem st p).2 = "") :
    convert_paragraph stem st p lt =
      ((build_runs stem st p).1, h ++ "\x7b" ++ (build_runs stem st p).2 ++ "\x7d\n", none) := by
  simp only [convert_paragraph]
  rw [if_neg ht, hh]

/-- Evaluation of the paragraph emitter on a list item. -/
lemma convert_paragraph_item (stem : String) (st : ImgState) (p : Paragraph) (L : String)
    (hh : heading_command (Option.getD p.style "") = none)
    (ht : ¬ (build_runs stem st p).2 = "") :
    convert_paragraph stem st p (some L) =
      ((build_runs stem st p).1, "\\item " ++ (build_runs stem st p).2, some L) := by
  simp only [convert_paragraph]
  rw [if_neg ht, hh]

/-- Evaluation of the paragraph emitter on a plain paragraph. -/
lemma convert_paragraph_plain (stem : String) (st : ImgState) (p : Paragraph)
    (hh : heading_command (Option.getD p.style "") = none)
    (ht : ¬ (build_runs stem st p).2 = "") :
    convert_paragraph stem st p none =
      ((build_runs stem st p).1,
       apply_alignment (build_runs stem st p).2 p.alignment ++ "\n", none) := by
  simp only [convert_paragraph]
  rw [if_neg ht, hh]

/-- With no incoming list classification the paragraph emitter never
returns one. -/
lemma convert_paragraph_opened_none (stem : String) (st : ImgState) (p : Paragraph) :
    (convert_paragraph stem st p none).2.2 = none := by
  by_cases hb : (build_runs stem st p).2 = ""
  · rw [convert_paragraph_empty stem st p none hb]
  · cases hh : heading_command (Option.getD p.style "") with
    | some h => rw [convert_paragraph_heading stem st p none h hh hb]
    | none => rw [convert_paragraph_plain stem st p hh hb]


/-- Claim C1: the source intends each line break inside a run to map to
the inline line-break command (backslash-backslash-space: the replacement
string of `text.replace("\n", ...)`), but the replacement runs before
the character loop, so the inserted backslashes are themselves escaped;
evaluating `_escape_tex` at the run text a, line break, b shows the
emitted form and that it differs from the intended inline break. -/
theorem c1_linebreak_escape_bug :
    escape_tex "a\nb" = "a\\textbackslash\x7b\x7d\\textbackslash\x7b\x7d b" ∧
    escape_tex "a\nb" ≠ "a\\\\ b" := by
  constructor
  · rfl
  · decide

/-- Claim C3: for every table and column index the emitted column
alignment equals the specification's majority vote with ties broken in
the fixed priority left, center, right; in particular votes center,
center, right give center, and the three-way tie left, center, right
gives left. -/
theorem c3_column_alignment_majority :
    (∀ (t : Table) (i : Nat), column_alignment t i = spec_column_alignment t i) ∧
    column_alignment tblCCR 0 = "c" ∧ column_alignment tblLCR 0 = "l" := by
  refine ⟨?_, rfl, rfl⟩
  intro t i
  simp only [column_alignment, spec_column_alignment]
  by_cases hv : columnVotes t i = []
  · rw [if_pos hv, hv]
    simp [countEq]
  · rw [if_neg hv, maxByVal_three]

/-- Claim C6: run formatting applies the wrappers in the fixed order
color, underline, italic, bold, monospace, size (innermost to
outermost); the bold italic red run nests bold around italic around
color with no size or monospace wrapper, and the size wrap is chosen by
first-match thresholding of the point size. -/
theorem c6_run_formatting_order :
    (∀ (content : String) (r : Run),
      apply_run_formatting content r = spec_apply_run_formatting content r) ∧
    apply_run_formatting "text" runBIC =
      "\\textbf\x7b\\textit\x7b\\textcolor[HTML]\x7bFF0000\x7d\x7btext\x7d\x7d\x7d" ∧
    size_command (some 18) = some "\\Large" ∧
    size_command (some 17) = some "\\large" ∧
    size_command (some 16) = some "\\large" ∧
    size_command (some 8) = some "\\footnotesize" ∧
    size_command (some 9) = some "\\small" ∧
    size_command (some 10) = none ∧
    size_command none = none := by
  exact ⟨fun _ _ => rfl, rfl, by decide, by decide, by decide, by decide, by decide,
    by decide, by decide⟩

/-- Claim C7: escaping is total and deterministic, maps the empty string
to the empty string, maps each of the ten special characters to its own
fixed escape sequence (injectively: the ten outputs are pairwise
distinct), passes every other character (line breaks apart) through
unchanged, and escapes the sample 100 percent ampersand dollar string as
specified. -/
theorem c7_escape_total_injective :
    escape_tex "" = "" ∧
    specials.map replacements =
      [some "\\textbackslash\x7b\x7d", some "\\&", some "\\%", some "\\$", some "\\#",
       some "\\_", some "\\\x7b", some "\\\x7d", some "\\textasciitilde\x7b\x7d",
       some "\\textasciicircum\x7b\x7d"] ∧
    (specials.map replacements).Nodup ∧
    (∀ c ∈ specials, escape_tex (String.mk [c]) = Option.getD (replacements c) "") ∧
    (∀ c : Char, c ∉ specials → c ≠ '\n' → escape_tex (String.mk [c]) = String.mk [c]) ∧
    escape_tex "100% & $5" = "100\\% \\& \\$5" := by
  refine ⟨rfl, rfl, by decide, by decide, ?_, rfl⟩
  intro c h1 h2
  have hne : String.mk [c] ≠ "" := by
    intro hc
    have hd := congrArg String.data hc
    simp at hd
  unfold escape_tex
  rw [if_neg hne]
  have hr : replacements c = none := by
    simp [specials] at h1
    obtain ⟨n1, n2, n3, n4, n5, n6, n7, n8, n9, n10⟩ := h1
    simp [replacements, n1, n2, n3, n4, n5, n6, n7, n8, n9, n10]
  simp [escapeList, replaceNewline, h2, hr]

/-- Witness for the pass-through and special-character parts of the C7
theorem at the concrete characters ampersand and a. -/
theorem c7_escape_total_injective_witness :
    escape_tex (String.mk ['&']) = Option.getD (replacements '&') "" ∧
    escape_tex (String.mk ['a']) = String.mk ['a'] :=
  ⟨c7_escape_total_injective.2.2.2.1 '&' (by decide),
   c7_escape_total_injective.2.2.2.2.1 'a' (by decide) (by decide)⟩

/-- Claim C10: a table with zero rows makes the conversion fail: the
column-count maximum is taken over an empty sequence and the operation
raises, both at table level and for a whole document containing such a
table; the error is unreachable exactly when every table has at least
one row. -/
theorem c10_empty_table_error :
    convert_table cfg0 "doc" st0 (Table.mk []) =
      Except.error "max() arg is an empty sequence" ∧
    convertDoc cfg0 "doc" [Block.table (Table.mk [])] =
      Except.error "max() arg is an empty sequence" ∧
    (∀ (cfg : Config) (stem : String) (st : ImgState) (t : Table),
      t.rows = [] → convert_table cfg stem st t = Except.error "max() arg is an empty sequence") ∧
    (∀ (cfg : Config) (stem : String) (st : ImgState) (t : Table),
      t.rows ≠ [] → (convert_table cfg stem st t).isOk = true) := by
  refine ⟨rfl, rfl, ?_, ?_⟩
  · intro cfg stem st t h
    cases t with
    | mk rows =>
      cases rows with
      | nil => rfl
      | cons r rest => simp at h
  · intro cfg stem st t h
    cases t with
    | mk rows =>
      cases rows with
      | nil => simp at h
      | cons r rest => rfl

/-- Witness for the quantified parts of the C10 theorem: the concrete
empty table errors and the concrete nonempty table succeeds. -/
theorem c10_empty_table_error_witness :
    convert_table cfgNoPre "w" st0 (Table.mk []) =
      Except.error "max() arg is an empty sequence" ∧
    (convert_table cfgNoPre "w" st0 tblCCR).isOk = true :=
  ⟨c10_empty_table_error.2.2.1 cfgNoPre "w" st0 (Table.mk []) rfl,
   c10_empty_table_error.2.2.2 cfgNoPre "w" st0 tblCCR (by decide)⟩


/-- The relative path (output-directory relative, POSIX separators) under
which the image with counter value `k` is saved. -/
def image_rel_path (stem : String) (k : Nat) (img : Image) : String :=
  stem ++ "_images/" ++ ("image_" ++ toString k ++ image_ext img)

/-- Claim C8: image extraction gives the images sequential names
image_n.ext in encounter order, n starting at the incoming counter and
the extension defaulting to .png, and the saved paths and emitted
reference commands are in positional bijection (the commands are exactly
the image of the saved paths under the snippet constructor); a
document-level conversion starting at counter 1 with two embedded images
yields files image_1.png and image_2.jpg and exactly their two reference
commands. -/
theorem c8_image_extraction_bijection :
    (∀ (stem : String) (n : Nat) (saved : List String) (pics : List (Option Image)),
      extract_images stem (ImgState.mk n saved) pics =
        (ImgState.mk (n + (pics.filterMap id).length)
          (saved ++ (indexFrom n (pics.filterMap id)).map
             (fun e => image_rel_path stem e.1 e.2)),
         ((indexFrom n (pics.filterMap id)).map
             (fun e => image_rel_path stem e.1 e.2)).map image_snippet)) ∧
    convertDoc cfgNoPre "doc" [Block.para pTwoImages] =
      Except.ok
        ("\\includegraphics[width=\\linewidth]\x7bdoc_images/image_1.png\x7d\n\n\\includegraphics[width=\\linewidth]\x7bdoc_images/image_2.jpg\x7d\n",
         ["doc_images/image_1.png", "doc_images/image_2.jpg"]) := by
  refine ⟨?_, rfl⟩
  intro stem n saved pics
  induction pics generalizing n saved with
  | nil => simp [extract_images, indexFrom]
  | cons headp rest ih =>
    cases headp with
    | none => simpa [extract_images] using ih n saved
    | some img =>
      simp only [extract_images]
      rw [ih (n + 1) (saved ++ [stem ++ "_images/" ++ ("image_" ++ toString n ++ image_ext img)])]
      simp [indexFrom, image_rel_path, List.append_assoc]
      omega

/-- Claim C9: the output lines of the block loop decompose into exactly
one contiguous segment per input block, in input order (no reordering,
duplication or omission of recognized blocks): the loop equals the
per-block segment list flattened, and the segment list has exactly one
entry per block. -/
theorem c9_block_order :
    (∀ (cfg : Config) (stem : String) (st : ImgState) (cur : Option String) (bs : List Block),
      convertLoop cfg stem st cur bs =
        (blockSegs cfg stem st cur bs).map (fun x => (x.2.1, x.2.2, x.1.flatten))) ∧
    (∀ (cfg : Config) (stem : String) (st : ImgState) (cur : Option String) (bs : List Block)
       (segs : List (List String)) (st2 : ImgState) (cur2 : Option String),
      blockSegs cfg stem st cur bs = Except.ok (segs, st2, cur2) →
      segs.length = bs.length) := by
  constructor
  · intro cfg stem st cur bs
    induction bs generalizing st cur with
    | nil => rfl
    | cons b bs ih =>
      simp only [convertLoop, blockSegs]
      cases hpb : processBlock cfg stem st cur b with
      | error e => rfl
      | ok res =>
        dsimp only
        rw [ih res.1 res.2.1]
        cases hbs : blockSegs cfg stem res.1 res.2.1 bs with
        | error e => simp [Except.map]
        | ok res2 => simp [Except.map]
  · intro cfg stem st cur bs
    induction bs generalizing st cur with
    | nil =>
      intro segs st2 cur2 h
      simp only [blockSegs, Except.ok.injEq, Prod.mk.injEq] at h
      obtain ⟨h1, h2, h3⟩ := h
      subst h1
      rfl
    | cons b bs ih =>
      intro segs st2 cur2 h
      simp only [blockSegs] at h
      cases hpb : processBlock cfg stem st cur b with
      | error e => rw [hpb] at h; simp at h
      | ok res =>
        rw [hpb] at h
        dsimp only at h
        cases hbs : blockSegs cfg stem res.1 res.2.1 bs with
        | error e => rw [hbs] at h; simp at h
        | ok res2 =>
          rw [hbs] at h
          dsimp only at h
          have hlen := ih res.1 res.2.1 res2.1 res2.2.1 res2.2.2 (by rw [hbs])
          simp only [Except.ok.injEq, Prod.mk.injEq] at h
          obtain ⟨h1, h2, h3⟩ := h
          subst h1
          simp [hlen]

/-- Witness for the segment-count part of the C9 theorem on a concrete
two-block document. -/
theorem c9_block_order_witness :
    ([["\\begin\x7bitemize\x7d", "\\item a"], ["\\end\x7bitemize\x7d", "d\n"]] :
      List (List String)).length = ([Block.para pBulletA, Block.para pNormalD] : List Block).length :=
  c9_block_order.2 cfg0 "doc" st0 none [Block.para pBulletA, Block.para pNormalD]
    [["\\begin\x7bitemize\x7d", "\\item a"], ["\\end\x7bitemize\x7d", "d\n"]] st0 none rfl


/-- Counterexample to claim C2 as stated: with an itemize environment
open, processing the empty Normal-styled paragraph does emit a line (the
close-environment marker) and moves the list state to none, so an empty
paragraph does not leave the assembler's list state untouched regardless
of its classification. -/
theorem c2_empty_paragraph_counterexample :
    processBlock cfg0 "doc" st0 (some "itemize") (Block.para pEmptyNormal) =
      Except.ok (st0, none, ["\\end\x7bitemize\x7d"]) ∧
    ¬(["\\end\x7bitemize\x7d"] = ([] : List String) ∧
      (none : Option String) = some "itemize") := by
  exact ⟨rfl, by decide⟩

/-- Amended claim C2: an empty paragraph contributes no paragraph-text
line and the emitter returns the incoming classification unchanged, but
the assembler's transition still runs on the paragraph's style-derived
classification: a differing open environment is closed, and a non-none
classification with no environment open (also right after such a close)
emits an open marker and becomes the new state. -/
theorem c2_empty_paragraph_amended (cfg : Config) (stem : String) (st : ImgState)
    (cur : Option String) (p : Paragraph) (h : (build_runs stem st p).2 = "") :
    processBlock cfg stem st cur (Block.para p) =
      Except.ok ((build_runs stem st p).1,
        (match get_list_type p, cur with
         | some M, some L => if M = L then some L else some M
         | some M, none => some M
         | none, _ => none),
        ((match cur with
          | some L => if get_list_type p ≠ some L then ["\\end\x7b" ++ L ++ "\x7d"] else []
          | none => []) ++
         (match get_list_type p, cur with
          | some M, some L => if M = L then [] else ["\\begin\x7b" ++ M ++ "\x7d"]
          | some M, none => ["\\begin\x7b" ++ M ++ "\x7d"]
          | none, _ => []))) := by
  simp only [processBlock]
  rw [convert_paragraph_empty stem st p (get_list_type p) h]
  cases hlt : get_list_type p with
  | none =>
    cases cur with
    | none => simp
    | some L => simp
  | some M =>
    cases cur with
    | none => simp
    | some L =>
      by_cases hml : M = L
      · subst hml
        simp
      · simp [hml]

/-- Witness for the amended C2 theorem: an empty List Bullet paragraph
while an enumerate environment is open closes it and opens itemize. -/
theorem c2_empty_paragraph_amended_witness :
    processBlock cfg0 "doc" st0 (some "enumerate") (Block.para pEmptyBullet) =
      Except.ok (st0, some "itemize", ["\\end\x7benumerate\x7d", "\\begin\x7bitemize\x7d"]) :=
  (c2_empty_paragraph_amended cfg0 "doc" st0 (some "enumerate") pEmptyBullet rfl).trans rfl


/-- Claim C4: three non-empty List Bullet paragraphs followed by one
non-empty Normal paragraph emit one open marker, three items, one close
marker, then the normal paragraph, in order; in general, with a list
open a paragraph keeps it open exactly when its classification matches
(and otherwise the block behaves as from the closed state with the close
marker prepended), from the closed state a paragraph opens exactly its
non-none classification, a table always closes an open environment, and
the document assembler appends a final close for an environment still
open at end of document. -/
theorem c4_list_grouping :
    convertLoop cfg0 "doc" st0 none
        [Block.para pBulletA, Block.para pBulletB, Block.para pBulletC, Block.para pNormalD] =
      Except.ok (st0, none,
        ["\\begin\x7bitemize\x7d", "\\item a", "\\item b", "\\item c",
         "\\end\x7bitemize\x7d", "d\n"]) ∧
    (∀ (cfg : Config) (stem : String) (st : ImgState) (L : String) (p : Paragraph),
      processBlock cfg stem st (some L) (Block.para p) =
        if get_list_type p = some L then
          Except.ok ((build_runs stem st p).1, some L,
            if (build_runs stem st p).2 = "" then []
            else ["\\item " ++ (build_runs stem st p).2])
        else
          (processBlock cfg stem st none (Block.para p)).map
            (fun x => (x.1, x.2.1, ("\\end\x7b" ++ L ++ "\x7d") :: x.2.2))) ∧
    (∀ (cfg : Config) (stem : String) (st : ImgState) (p : Paragraph),
      processBlock cfg stem st none (Block.para p) =
        match get_list_type p with
        | some M =>
          Except.ok ((build_runs stem st p).1, some M,
            ("\\begin\x7b" ++ M ++ "\x7d") ::
              (if (build_runs stem st p).2 = "" then []
               else ["\\item " ++ (build_runs stem st p).2]))
        | none =>
          Except.ok ((convert_paragraph stem st p none).1, none,
            if (convert_paragraph stem st p none).2.1 = "" then []
            else [(convert_paragraph stem st p none).2.1])) ∧
    (∀ (cfg : Config) (stem : String) (st : ImgState) (L : String) (t : Table),
      processBlock cfg stem st (some L) (Block.table t) =
        (processBlock cfg stem st none (Block.table t)).map
          (fun x => (x.1, x.2.1, ("\\end\x7b" ++ L ++ "\x7d") :: x.2.2))) ∧
    (∀ (cfg : Config) (stem : String) (blocks : List Block) (st : ImgState) (L : String)
       (ls : List String),
      convertLoop cfg stem (ImgState.mk 1 []) none blocks = Except.ok (st, some L, ls) →
      convertDoc cfg stem blocks =
        Except.ok
          ((if cfg.include_preamble then
              wrap_document
                (trimStr (String.intercalate "\n" (ls ++ ["\\end\x7b" ++ L ++ "\x7d"])) ++ "\n")
            else
              trimStr (String.intercalate "\n" (ls ++ ["\\end\x7b" ++ L ++ "\x7d"])) ++ "\n"),
           st.saved)) := by
  refine ⟨rfl, ?_, ?_, ?_, ?_⟩
  · intro cfg stem st L p
    by_cases hlt : get_list_type p = some L
    · rw [if_pos hlt]
      simp only [processBlock]
      rw [hlt]
      by_cases hb : (build_runs stem st p).2 = ""
      · rw [convert_paragraph_empty stem st p (some L) hb]
        simp [hb]
      · rw [convert_paragraph_item stem st p L (list_some_heading_none p L hlt) hb]
        have hne := append_ne_empty_left "\\item " (build_runs stem st p).2 (by decide)
        simp [hb, hne]
    · rw [if_neg hlt]
      simp only [processBlock]
      rw [if_pos hlt]
      cases hop : (convert_paragraph stem st p (get_list_type p)).2.2 with
      | none => simp [hop, Except.map]
      | some o => simp [hop, Except.map]
  · intro cfg stem st p
    simp only [processBlock]
    cases hlt : get_list_type p with
    | some M =>
      by_cases hb : (build_runs stem st p).2 = ""
      · rw [convert_paragraph_empty stem st p (some M) hb]
        simp [hb]
      · rw [convert_paragraph_item stem st p M (list_some_heading_none p M hlt) hb]
        have hne := append_ne_empty_left "\\item " (build_runs stem st p).2 (by decide)
        simp [hb, hne]
    | none =>
      have hop := convert_paragraph_opened_none stem st p
      simp [hop]
  · intro cfg stem st L t
    simp only [processBlock]
    cases hct : convert_table cfg stem st t with
    | error e => simp [Except.map]
    | ok res => simp [Except.map]
  · intro cfg stem blocks st L ls h
    simp only [convertDoc]
    rw [h]

/-- Witness for the end-of-document close part of the C4 theorem: a
document consisting of one bullet paragraph gets its itemize environment
closed by the assembler. -/
theorem c4_list_grouping_witness :
    convertDoc cfgNoPre "doc" [Block.para pBulletA] =
      Except.ok ("\\begin\x7bitemize\x7d\n\\item a\n\\end\x7bitemize\x7d\n", []) :=
  (c4_list_grouping.2.2.2.2 cfgNoPre "doc" [Block.para pBulletA] st0 "itemize"
    ["\\begin\x7bitemize\x7d", "\\item a"] rfl).trans rfl

/-- Claim C5: a non-empty paragraph whose style name has the
case-insensitive prefix heading 1 through heading 5 emits the heading
command of that level around its text, has no list classification, and
never participates in a list: an open environment is closed before the
heading and the resulting state is none (for empty text nothing but the
close is emitted). -/
theorem c5_heading_never_in_list (cfg : Config) (stem : String) (st : ImgState)
    (cur : Option String) (p : Paragraph) (h : String)
    (hh : heading_command (Option.getD p.style "") = some h) :
    get_list_type p = none ∧
    processBlock cfg stem st cur (Block.para p) =
      Except.ok ((build_runs stem st p).1, none,
        (match cur with
         | some L => ["\\end\x7b" ++ L ++ "\x7d"]
         | none => []) ++
        (if (build_runs stem st p).2 = "" then []
         else [h ++ "\x7b" ++ (build_runs stem st p).2 ++ "\x7d\n"])) ∧
    heading_command "Heading 1" = some "\\section" ∧
    heading_command "Heading 2" = some "\\subsection" ∧
    heading_command "Heading 3" = some "\\subsubsection" ∧
    heading_command "Heading 4" = some "\\paragraph" ∧
    heading_command "HEADING 5 custom" = some "\\subparagraph" := by
  have hlt := heading_some_list_none p h hh
  refine ⟨hlt, ?_, by decide, by decide, by decide, by decide, by decide⟩
  simp only [processBlock]
  rw [hlt]
  by_cases hb : (build_runs stem st p).2 = ""
  · rw [convert_paragraph_empty stem st p none hb]
    cases cur with
    | none => simp [hb]
    | some L => simp [hb]
  · rw [convert_paragraph_heading stem st p none h hh hb]
    have hne : h ++ "\x7b" ++ (build_runs stem st p).2 ++ "\x7d\n" ≠ "" :=
      append_ne_empty_right _ "\x7d\n" (by decide)
    cases cur with
    | none => simp [hb, hne]
    | some L => simp [hb, hne]

/-- Witness for the C5 theorem: a Heading 2 paragraph with text T,
processed while an itemize environment is open, closes the list and
emits the subsection command. -/
theorem c5_heading_never_in_list_witness :
    get_list_type pHeadingT = none ∧
    processBlock cfg0 "doc" st0 (some "itemize") (Block.para pHeadingT) =
      Except.ok (st0, none, ["\\end\x7bitemize\x7d", "\\subsection\x7bT\x7d\n"]) := by
  have k := c5_heading_never_in_list cfg0 "doc" st0 (some "itemize") pHeadingT "\\subsection"
    (by decide)
  exact ⟨k.1, k.2.1.trans rfl⟩

end WordToTex
